import Mathlib

/-!
Verification of the order-lifecycle / coupon slice of the vibe-bites backend.

The development shallowly embeds the relevant route handlers and the
order/coupon business logic.  Money amounts are rationals (ℚ); stock
quantities are naturals; JavaScript request-body values are modelled by a
small JSON-like value type.  Route handlers that mutate the database are
embedded as pure functions from the pre-state to `Except error post-state`:
returning `.error e` means the handler responded with that error and the
database is unchanged.
-/

namespace VibeBites

/-! ## JSON-ish request values and express-validator checks

Request bodies are JSON, so a field can hold a boolean, a string, a number
or null.  `express-validator` validators run on the stringified value
(booleans print as "true"/"false", null as the empty string), and the
default `isBoolean()` check is the loose one from validator.js: it accepts
exactly the strings "true", "false", "0" and "1". -/

inductive JVal : Type where
  | bool (b : Bool)
  | str (s : String)
  | num (n : Int)
  | null
deriving DecidableEq, Repr

/-- Stringification applied by express-validator before running a
validator.js check on a request-body value. -/
def JVal.asString : JVal → String
  | .bool true => "true"
  | .bool false => "false"
  | .str s => s
  | .num n => toString n
  | .null => ""

/-- The `body('isActive').isBoolean()` check (validator.js `isBoolean`
with default options): the stringified value must be one of
"true", "false", "0", "1". -/
def JVal.isBooleanLoose (v : JVal) : Bool :=
  v.asString == "true" || v.asString == "false" ||
  v.asString == "0" || v.asString == "1"

/-- Mongoose cast of a value that passed `isBooleanLoose` to a stored
boolean: "true"/"1" become `true`, "false"/"0" become `false`. -/
def JVal.castBool (v : JVal) : Bool :=
  v.asString == "true" || v.asString == "1"

/-! ## Categories (src/routes/categories.js)

`Category` documents have a unique `name`, optional `description` and
`image`, and an `isActive` flag (default `true` at creation). -/

structure Category : Type where
  id : Nat
  name : String
  description : Option String
  image : Option String
  isActive : Bool
deriving DecidableEq, Repr

inductive CatError : Type where
  | validation
  | notFound
  | alreadyExists
deriving DecidableEq, Repr

/-- JavaScript `String.prototype.trim()`: drop leading and trailing
whitespace. -/
def jsTrim (s : String) : String :=
  ⟨((s.data.dropWhile Char.isWhitespace).reverse.dropWhile
      Char.isWhitespace).reverse⟩

/-- `s` starts with the characters `p`. -/
def startsWithChars (s : String) (p : List Char) : Bool :=
  s.data.take p.length == p

/-- The name check from `body('name').trim().isLength({min:2,max:50})`. -/
def nameLenOk (name : String) : Bool :=
  2 ≤ (jsTrim name).length && (jsTrim name).length ≤ 50

/-- The optional description check `isLength({max:300})`. -/
def descOk : Option String → Bool
  | none => true
  | some d => (jsTrim d).length ≤ 300

/-- The optional image check: the custom validator accepts an absent or
empty value, otherwise the value must match `^https?:\/\/.+`. -/
def imageOk : Option String → Bool
  | none => true
  | some s =>
      let t := jsTrim s
      t == "" ||
      (startsWithChars t "http://".data && 7 < t.length) ||
      (startsWithChars t "https://".data && 8 < t.length)

/-- `POST /api/categories` (create category, admin).  Field validation
first; then the trimmed name is looked up with `findOne({name})` and a
duplicate is refused with "Category already exists"; otherwise a new
category is appended with `isActive` defaulting to `true`.  On `.error`
the collection is unchanged (the handler returned before `create`). -/
def createCategory (cats : List Category) (freshId : Nat)
    (name : String) (description image : Option String) :
    Except CatError (List Category) :=
  if ¬ (nameLenOk name && descOk description && imageOk image) then
    .error .validation
  else
    let nm := jsTrim name
    if cats.any (fun c => c.name == nm) then
      .error .alreadyExists
    else
      .ok (cats ++ [{ id := freshId, name := nm,
                      description := description.bind
                        (fun d => if jsTrim d == "" then none else some (jsTrim d)),
                      image := image.bind
                        (fun i => if jsTrim i == "" then none else some (jsTrim i)),
                      isActive := true }])

/-- `PATCH /api/categories/:id/status` (toggle status, admin).
Validation rejects an `isActive` that fails the loose boolean check;
then `findByIdAndUpdate(id, { isActive })` updates exactly that field of
the matching category, returning 404 when no category has the id.  On
`.error` the collection is unchanged. -/
def patchCategoryStatus (cats : List Category) (id : Nat) (isActive : JVal) :
    Except CatError (List Category) :=
  if ¬ isActive.isBooleanLoose then
    .error .validation
  else if cats.all (fun c => c.id ≠ id) then
    .error .notFound
  else
    .ok (cats.map (fun c =>
      if c.id = id then { c with isActive := isActive.castBool } else c))

/-! ## Admin direct order-status update (src/unnamed/part_001, lines 510-540)

The route `router.put('/orders/:id/status')` reads `status` from the body
and runs `Order.findByIdAndUpdate(id, { orderStatus: status }, { new: true })`.
`orderStatus` is an ad-hoc string in this handler and **no transition
check of any kind is performed**: whatever string arrives is stored.
The only failure is the 404 when no order has the id. -/

structure AdminOrder : Type where
  id : Nat
  orderStatus : String
deriving DecidableEq, Repr

inductive AdminErr : Type where
  | notFound
deriving DecidableEq, Repr

/-- The handler of `PUT /api/admin/orders/:id/status`: unconditionally
overwrite `orderStatus` of the matching order with the requested string;
404 when the id is unknown. -/
def adminSetOrderStatus (orders : List AdminOrder) (id : Nat) (status : String) :
    Except AdminErr (List AdminOrder) :=
  if orders.all (fun o => o.id ≠ id) then
    .error .notFound
  else
    .ok (orders.map (fun o =>
      if o.id = id then { o with orderStatus := status } else o))

/-! ## Coupons

The coupon document (fields as used by the seed in src/unnamed/part_002
and by the spec §3): code, discount, type, applicable categories,
minOrderAmount, maxDiscount, validity window, usage limits, isActive,
isFirstTimeOnly.  Timestamps are integers (milliseconds); money is ℚ. -/

inductive CouponType : Type where
  | percentage
  | fixed
deriving DecidableEq, Repr

structure Coupon : Type where
  code : String
  discount : ℚ
  ctype : CouponType
  categories : List String
  minOrderAmount : ℚ
  maxDiscount : Option ℚ
  validFrom : Int
  validUntil : Int
  usageLimit : Option Nat
  usedCount : Nat
  userUsageLimit : Option Nat
  isActive : Bool
  isFirstTimeOnly : Bool
deriving DecidableEq, Repr

/-- The development-mode seed coupon `VIBE10` created at server start
(src/unnamed/part_002, `startServer`): 10% off, `maxDiscount: 100`,
`minOrderAmount: 0`, no category restriction, valid for 14 days from
seeding time `now`, active, not first-time-only.  The seed sets no usage
limits and a fresh document has `usedCount = 0`. -/
def vibe10Seed (now : Int) : Coupon :=
  { code := "VIBE10"
    discount := 10
    ctype := .percentage
    categories := []
    minOrderAmount := 0
    maxDiscount := some 100
    validFrom := now
    validUntil := now + 14 * 24 * 60 * 60 * 1000
    usageLimit := none
    usedCount := 0
    userUsageLimit := none
    isActive := true
    isFirstTimeOnly := false }

/-! ## Coupon evaluator

Modelled from the spec: the coupon evaluation and discount computation
live in `routes/coupons.js` / `routes/orders.js`, which are not among the
source files; the definitions below follow spec §4.1 word for word
(validation order, discountable base, discount formula, round-half-up to
two decimals). -/

/-- A cart line as seen by the evaluator: category of the product, unit
price and quantity. -/
structure CartItem : Type where
  category : String
  price : ℚ
  quantity : Nat
deriving DecidableEq, Repr

inductive RejectReason : Type where
  | couponNotFound
  | notActive
  | notInWindow
  | firstTimeOnly
  | minOrderNotMet
  | categoryNotApplicable
  | usageLimitExceeded
  | userUsageLimitExceeded
deriving DecidableEq, Repr

/-- Round a rational to two decimal places, half up:
`⌊100·q + 1/2⌋ / 100`. -/
def roundHalfUp2 (q : ℚ) : ℚ :=
  (⌊100 * q + 1 / 2⌋ : ℤ) / 100

/-- Modelled from the spec (§4.1 item 5, glossary "discountable base"):
the subtotal the discount is computed against — the whole order amount
when the coupon has no category restriction, otherwise the value of the
cart items whose category is in the coupon's category list. -/
def discountableBase (c : Coupon) (items : List CartItem) (orderAmount : ℚ) : ℚ :=
  if c.categories.isEmpty then orderAmount
  else (((items.filter (fun i => c.categories.contains i.category)).map
          (fun i => i.price * (i.quantity : ℚ))).sum)

/-- Modelled from the spec (§4.1 "Discount computation"): `percentage` →
`base × discount/100`, capped at `maxDiscount` if set; `fixed` →
`min(discount, base)`; never below zero, never above the base; rounded
to two decimals, half up. -/
def computeDiscount (c : Coupon) (base : ℚ) : ℚ :=
  let raw : ℚ :=
    match c.ctype with
    | .percentage =>
        let p := base * c.discount / 100
        match c.maxDiscount with
        | some cap => min p cap
        | none => p
    | .fixed => min c.discount base
  roundHalfUp2 (min (max 0 raw) base)

/-- Modelled from the spec (§4.1 check 4): the minimum-order check,
`orderAmount ≥ minOrderAmount`. -/
def minOrderCheck (c : Coupon) (orderAmount : ℚ) : Bool :=
  c.minOrderAmount ≤ orderAmount

/-- Modelled from the spec (§4.1): the coupon evaluator,
`evaluate(coupon, cartItems, orderAmount, userOrderCount, userUsedCount)`
at time `now`.  Short-circuit validation in the spec's order; on success
returns the discount amount.  `userOrderCount = none` is the guest case
(no history supplied), which passes the first-time-only check. -/
def evaluate (now : Int) (c : Coupon) (items : List CartItem)
    (orderAmount : ℚ) (userOrderCount : Option Nat) (userUsedCount : Nat) :
    Except RejectReason ℚ :=
  if ¬ c.isActive then .error .notActive
  else if ¬ (c.validFrom ≤ now ∧ now ≤ c.validUntil) then .error .notInWindow
  else if c.isFirstTimeOnly ∧ (∃ n, userOrderCount = some n ∧ n ≠ 0) then
    .error .firstTimeOnly
  else if ¬ minOrderCheck c orderAmount then .error .minOrderNotMet
  else if ¬ c.categories.isEmpty ∧
          items.all (fun i => ¬ c.categories.contains i.category) then
    .error .categoryNotApplicable
  else if ∃ l, c.usageLimit = some l ∧ l ≤ c.usedCount then
    .error .usageLimitExceeded
  else if ∃ l, c.userUsageLimit = some l ∧ l ≤ userUsedCount then
    .error .userUsageLimitExceeded
  else .ok (computeDiscount c (discountableBase c items orderAmount))

/-! ## Order state machine and order service

Modelled from the spec: `routes/orders.js` and `models/Order.js` are not
among the source files; the definitions below follow spec §3, §4.2 and
§4.3. -/

inductive OrderStatus : Type where
  | pending
  | confirmed
  | processing
  | shipped
  | delivered
  | cancelled
  | returned
  | refunded
deriving DecidableEq, Repr

inductive CRType : Type where
  | cancel
  | ret
deriving DecidableEq, Repr

inductive CRStatus : Type where
  | pending
  | approved
  | rejected
deriving DecidableEq, Repr

/-- Modelled from the spec (§3 `CancelReturnRequest`): the cancel/return
request record embedded in an order. -/
structure CRRequest : Type where
  rtype : CRType
  reason : String
  description : String
  status : CRStatus
  adminNotes : Option String
  refundAmount : Option ℚ
deriving DecidableEq, Repr

/-- A line item of an order: product reference, chosen size, unit price
snapshotted at order time, quantity (spec §3 `Order`). -/
structure OrderItem : Type where
  product : Nat
  size : String
  price : ℚ
  quantity : Nat
deriving DecidableEq, Repr

/-- Modelled from the spec (§3 `Order`): the order fields the verified
slice touches. -/
structure Order : Type where
  items : List OrderItem
  couponCode : Option String
  discount : ℚ
  total : ℚ
  orderStatus : OrderStatus
  request : Option CRRequest
deriving DecidableEq, Repr

/-- One product variant in the inventory: product id, size label,
category of the product, unit price, available stock. -/
structure StockEntry : Type where
  product : Nat
  size : String
  category : String
  price : ℚ
  stock : Nat
deriving DecidableEq, Repr

/-- The shared mutable state of the order service (spec §5): product
stock counters and the coupon collection. -/
structure State : Type where
  stock : List StockEntry
  coupons : List Coupon
deriving DecidableEq, Repr

/-- A requested line of `createOrder`: product id, size, quantity. -/
structure ItemReq : Type where
  product : Nat
  size : String
  quantity : Nat
deriving DecidableEq, Repr

inductive OrderError : Type where
  | notFound
  | insufficientStock (offenders : List ItemReq)
  | couponRejected (reason : RejectReason)
  | invalidState
  | invalidTransition
  | windowExpired
deriving DecidableEq, Repr

/-- Look up the variant of a product/size pair in the inventory. -/
def lookupEntry (st : List StockEntry) (p : Nat) (sz : String) :
    Option StockEntry :=
  st.find? (fun e => e.product == p && e.size == sz)

/-- Total quantity requested for one product/size pair across the
request lines (aggregating duplicate lines, so that the all-or-nothing
stock check of spec §4.3 step 4 is against the combined demand). -/
def sumQty (items : List ItemReq) (p : Nat) (sz : String) : Nat :=
  ((items.filter (fun r => r.product == p && r.size == sz)).map
    (fun r => r.quantity)).sum

/-- Decrement the stock of every requested variant by the requested
quantity (spec §4.3 step 4), leaving prices and other variants alone. -/
def decrementStock (st : List StockEntry) (items : List ItemReq) :
    List StockEntry :=
  st.map (fun e => { e with stock := e.stock - sumQty items e.product e.size })

/-- Release the stock an order had reserved back to inventory
(spec §4.2 `processCancelRequest`, approved branch). -/
def restoreStock (st : List StockEntry) (items : List OrderItem) :
    List StockEntry :=
  st.map (fun e =>
    { e with stock := e.stock +
        (((items.filter (fun r => r.product == e.product && r.size == e.size)).map
          (fun r => r.quantity)).sum) })

/-- Increment a coupon's global usage counter at order-commit time
(spec §4.1 "Side effects", §5). -/
def incrementUsage (cs : List Coupon) (code : String) : List Coupon :=
  cs.map (fun c =>
    if c.code == code then { c with usedCount := c.usedCount + 1 } else c)

/-- The request lines whose combined demand exceeds the available stock
(spec §4.3 step 1: the failure lists the offending items). -/
def stockOffenders (st : List StockEntry) (items : List ItemReq) :
    List ItemReq :=
  items.filter (fun r =>
    match lookupEntry st r.product r.size with
    | none => false
    | some e => decide (e.stock < sumQty items r.product r.size))

/-- Snapshot the unit price of each requested line from the current
inventory (spec §4.3 step 2); defined when every line resolves. -/
def snapshotItems (st : List StockEntry) (items : List ItemReq) :
    List OrderItem :=
  items.map (fun r =>
    { product := r.product, size := r.size,
      price := ((lookupEntry st r.product r.size).map (fun e => e.price)).getD 0,
      quantity := r.quantity })

/-- The cart as the coupon evaluator sees it: category and price come
from the resolved variant. -/
def cartOfReqs (st : List StockEntry) (items : List ItemReq) : List CartItem :=
  items.map (fun r =>
    { category := ((lookupEntry st r.product r.size).map (fun e => e.category)).getD "",
      price := ((lookupEntry st r.product r.size).map (fun e => e.price)).getD 0,
      quantity := r.quantity })

/-- Sum of snapshotted line prices times quantities. -/
def itemsSubtotal (items : List OrderItem) : ℚ :=
  (items.map (fun i => i.price * (i.quantity : ℚ))).sum

/-- Modelled from the spec (§4.3 `createOrder`): resolve every line and
check stock (unknown variant → `notFound`; combined demand above stock →
`insufficientStock` listing the offenders); snapshot prices; compute the
subtotal; run the coupon evaluator when a code is supplied and fail the
whole creation with its reason on rejection; then, as one atomic unit,
decrement all stock and bump the coupon usage counter, and return the
order persisted in `pending` status.  An `.error` result leaves the
state untouched (nothing was persisted, no stock was decremented). -/
def createOrder (s : State) (items : List ItemReq) (couponCode : Option String)
    (userOrderCount : Option Nat) (userUsedCount : Nat) (now : Int) :
    Except OrderError (Order × State) :=
  if items.any (fun r => (lookupEntry s.stock r.product r.size).isNone) then
    .error .notFound
  else if stockOffenders s.stock items ≠ [] then
    .error (.insufficientStock (stockOffenders s.stock items))
  else
    match couponCode with
    | none =>
        .ok ({ items := snapshotItems s.stock items, couponCode := none,
               discount := 0,
               total := itemsSubtotal (snapshotItems s.stock items),
               orderStatus := .pending, request := none },
             { stock := decrementStock s.stock items, coupons := s.coupons })
    | some code =>
        match (s.coupons.find? (fun c => c.code == code)) with
        | none => .error (.couponRejected .couponNotFound)
        | some c =>
            match evaluate now c (cartOfReqs s.stock items)
                (itemsSubtotal (snapshotItems s.stock items))
                userOrderCount userUsedCount with
            | .error r => .error (.couponRejected r)
            | .ok d =>
                .ok ({ items := snapshotItems s.stock items,
                       couponCode := some code, discount := d,
                       total := itemsSubtotal (snapshotItems s.stock items) - d,
                       orderStatus := .pending, request := none },
                     { stock := decrementStock s.stock items,
                       coupons := incrementUsage s.coupons code })

/-- An order currently carries a pending cancel/return request. -/
def hasPendingRequest (o : Order) : Bool :=
  match o.request with
  | some r => r.status == .pending
  | none => false

/-- Modelled from the spec (§4.2 `requestCancel`): allowed only while
the status is `pending`, `confirmed` or `processing` and no request is
already pending; creates a pending cancel request, otherwise fails with
`InvalidStateError`. -/
def requestCancel (o : Order) (reason description : String) :
    Except OrderError Order :=
  if ¬ (o.orderStatus = .pending ∨ o.orderStatus = .confirmed ∨
        o.orderStatus = .processing) then
    .error .invalidState
  else if hasPendingRequest o then
    .error .invalidState
  else
    let req : CRRequest :=
      { rtype := .cancel, reason := reason, description := description,
        status := .pending, adminNotes := none, refundAmount := none }
    .ok { o with request := some req }

/-- Modelled from the spec (§4.2 `requestReturn`): allowed only when the
order's status is `delivered`, no request is already pending, and the
call happens within the return window — a policy constant number of
milliseconds (`window`) after the delivery time `deliveredAt`; outside
the window it fails with `WindowExpiredError`, in a non-delivered status
(or with a request already pending) with `InvalidStateError`.  Success
files a pending return request. -/
def requestReturn (o : Order) (reason description : String)
    (now deliveredAt window : Int) : Except OrderError Order :=
  if ¬ o.orderStatus = .delivered then .error .invalidState
  else if hasPendingRequest o then .error .invalidState
  else if ¬ (now ≤ deliveredAt + window) then .error .windowExpired
  else
    let req : CRRequest :=
      { rtype := .ret, reason := reason, description := description,
        status := .pending, adminNotes := none, refundAmount := none }
    .ok { o with request := some req }

/-- Modelled from the spec (§4.2 `processCancelRequest`): requires a
pending cancel request; if approved, the order becomes `cancelled` and
the reserved stock is released back to inventory; if rejected, the
request status becomes `rejected` (clearing the pending request) and the
order status and the stock are unchanged. -/
def processCancelRequest (o : Order) (st : List StockEntry)
    (approved : Bool) (notes : String) :
    Except OrderError (Order × List StockEntry) :=
  match o.request with
  | some r =>
      if r.rtype = .cancel ∧ r.status = .pending then
        if approved then
          let r1 : CRRequest := { r with status := .approved, adminNotes := some notes }
          .ok ({ o with orderStatus := .cancelled, request := some r1 },
               restoreStock st o.items)
        else
          let r1 : CRRequest := { r with status := .rejected, adminNotes := some notes }
          .ok ({ o with request := some r1 }, st)
      else .error .invalidState
  | none => .error .invalidState

/-- Modelled from the spec (§4.2 `processReturnRequest`): requires a
pending return request; if approved, the order becomes `returned` and
the refund details are recorded (`refundAmount ≤ total` enforced); if
rejected, symmetric to cancel rejection. -/
def processReturnRequest (o : Order) (approved : Bool) (refundAmount : ℚ)
    (notes : String) : Except OrderError Order :=
  match o.request with
  | some r =>
      if r.rtype = .ret ∧ r.status = .pending then
        if approved then
          if refundAmount ≤ o.total then
            let r1 : CRRequest :=
              { r with status := .approved, adminNotes := some notes,
                       refundAmount := some refundAmount }
            .ok { o with orderStatus := .returned, request := some r1 }
          else .error .invalidState
        else
          let r1 : CRRequest := { r with status := .rejected, adminNotes := some notes }
          .ok { o with request := some r1 }
      else .error .invalidState
  | none => .error .invalidState

/-- Modelled from the spec (§4.2, admin direct status update as the spec
describes it): the forward-only happy-path transition table. -/
def happyStep : OrderStatus → OrderStatus → Bool
  | .pending, .confirmed => true
  | .confirmed, .processing => true
  | .processing, .shipped => true
  | .shipped, .delivered => true
  | _, _ => false

/-- Modelled from the spec (§4.2 `setStatus`): succeed exactly on a
forward step of the happy path from the current status, otherwise fail
with `InvalidTransitionError`.  This is the spec's intended state
machine, stated here to compare with the actual route handler
`adminSetOrderStatus` above. -/
def specSetStatus (o : Order) (newStatus : OrderStatus) :
    Except OrderError Order :=
  if happyStep o.orderStatus newStatus then
    .ok { o with orderStatus := newStatus }
  else .error .invalidTransition

/-! ## Arithmetic facts about the two-decimal money grid -/

/-- A rational lies on the currency's minor-unit grid (a whole number of
hundredths). -/
def isCents (q : ℚ) : Prop := (100 * q).den = 1

instance (q : ℚ) : Decidable (isCents q) := by
  unfold isCents; infer_instance

theorem isCents_iff {q : ℚ} : isCents q ↔ ∃ n : ℤ, 100 * q = (n : ℚ) := by
  constructor
  · intro h
    exact ⟨(100 * q).num, ((100 * q).den_eq_one_iff.mp h).symm⟩
  · rintro ⟨n, hn⟩
    unfold isCents
    rw [hn]
    exact Rat.den_intCast n

theorem isCents_natCast (n : ℕ) : isCents (n : ℚ) :=
  isCents_iff.mpr ⟨100 * n, by push_cast; ring⟩

theorem isCents_add {a b : ℚ} (ha : isCents a) (hb : isCents b) :
    isCents (a + b) := by
  obtain ⟨m, hm⟩ := isCents_iff.mp ha
  obtain ⟨n, hn⟩ := isCents_iff.mp hb
  exact isCents_iff.mpr ⟨m + n, by push_cast; rw [mul_add, hm, hn]⟩

theorem isCents_mul_nat {a : ℚ} (ha : isCents a) (n : ℕ) :
    isCents (a * (n : ℚ)) := by
  obtain ⟨m, hm⟩ := isCents_iff.mp ha
  refine isCents_iff.mpr ⟨m * n, ?_⟩
  push_cast
  rw [← mul_assoc, hm]

theorem isCents_zero : isCents 0 := isCents_natCast 0

theorem roundHalfUp2_nonneg {x : ℚ} (hx : 0 ≤ x) : 0 ≤ roundHalfUp2 x := by
  unfold roundHalfUp2
  have h : (0 : ℤ) ≤ ⌊100 * x + 1 / 2⌋ :=
    Int.floor_nonneg.mpr (by linarith)
  positivity

theorem roundHalfUp2_le {x b : ℚ} (hxb : x ≤ b) (hb : isCents b) :
    roundHalfUp2 x ≤ b := by
  obtain ⟨m, hm⟩ := isCents_iff.mp hb
  have hfl : ⌊100 * x + 1 / 2⌋ ≤ m := by
    have h1 : 100 * x + 1 / 2 < ((m + 1 : ℤ) : ℚ) := by
      have h2 : 100 * x ≤ 100 * b := by linarith
      rw [hm] at h2
      push_cast
      linarith
    exact Int.lt_add_one_iff.mp (Int.floor_lt.mpr h1)
  have hb' : b = (m : ℚ) / 100 := by
    rw [eq_div_iff (by norm_num : (100 : ℚ) ≠ 0), mul_comm, hm]
  unfold roundHalfUp2
  rw [hb']
  have : ((⌊100 * x + 1 / 2⌋ : ℤ) : ℚ) ≤ (m : ℚ) := Int.cast_le.mpr hfl
  linarith

theorem roundHalfUp2_isCents (x : ℚ) : isCents (roundHalfUp2 x) := by
  refine isCents_iff.mpr ⟨⌊100 * x + 1 / 2⌋, ?_⟩
  unfold roundHalfUp2
  field_simp

theorem isCents_listSum {l : List ℚ} (h : ∀ q ∈ l, isCents q) :
    isCents l.sum := by
  induction l with
  | nil => simpa using isCents_zero
  | cons a t ih =>
      rw [List.sum_cons]
      exact isCents_add (h a (by simp)) (ih (fun q hq => h q (by simp [hq])))

theorem computeDiscount_bounds_core (c : Coupon) (base : ℚ)
    (hb0 : 0 ≤ base) (hbc : isCents base) :
    0 ≤ computeDiscount c base ∧ computeDiscount c base ≤ base ∧
    isCents (computeDiscount c base) := by
  have key : ∀ r : ℚ, 0 ≤ roundHalfUp2 (min (max 0 r) base) ∧
      roundHalfUp2 (min (max 0 r) base) ≤ base ∧
      isCents (roundHalfUp2 (min (max 0 r) base)) := fun r =>
    ⟨roundHalfUp2_nonneg (le_min (le_max_left 0 r) hb0),
     roundHalfUp2_le (min_le_right _ _) hbc,
     roundHalfUp2_isCents _⟩
  simp only [computeDiscount]
  exact key _

/-- C3: for every coupon and every discountable base on the money grid,
the computed discount is nonnegative, never exceeds the base, and lies
on the two-decimal grid; by definition it is the round-half-up of the
type-specific formula (`percentage`: base×discount/100 capped at
`maxDiscount` when set; `fixed`: min(discount, base)) clamped to
[0, base]. -/
theorem computeDiscount_bounds (c : Coupon) (base : ℚ)
    (hb0 : 0 ≤ base) (hbc : isCents base) :
    0 ≤ computeDiscount c base ∧ computeDiscount c base ≤ base ∧
    isCents (computeDiscount c base) :=
  computeDiscount_bounds_core c base hb0 hbc

/-- C3 witness: the 10% coupon without cap applied to base 1000 gives
discount 100; with `maxDiscount = 50` it gives 50; the actual seeded
VIBE10 (cap 100) also gives 100; and the general bounds apply at
base 1000. -/
theorem computeDiscount_bounds_witness :
    (0 : ℚ) ≤ 1000 ∧ isCents (1000 : ℚ) ∧
    0 ≤ computeDiscount { vibe10Seed 0 with maxDiscount := none } 1000 ∧
    computeDiscount { vibe10Seed 0 with maxDiscount := none } 1000 ≤ 1000 ∧
    computeDiscount { vibe10Seed 0 with maxDiscount := none } 1000 = 100 ∧
    computeDiscount { vibe10Seed 0 with maxDiscount := some 50 } 1000 = 50 ∧
    computeDiscount (vibe10Seed 0) 1000 = 100 :=
  ⟨by norm_num, by simp only [isCents]; norm_num,
   (computeDiscount_bounds { vibe10Seed 0 with maxDiscount := none } 1000
      (by norm_num) (by simp only [isCents]; norm_num)).1,
   (computeDiscount_bounds { vibe10Seed 0 with maxDiscount := none } 1000
      (by norm_num) (by simp only [isCents]; norm_num)).2.1,
   by simp only [computeDiscount, vibe10Seed, roundHalfUp2]; norm_num,
   by simp only [computeDiscount, vibe10Seed, roundHalfUp2]; norm_num,
   by simp only [computeDiscount, vibe10Seed, roundHalfUp2]; norm_num⟩

/-- C6: for a coupon that passes the checks preceding the minimum-order
check (active, inside the validity window, not first-time-only), the
evaluator rejects with the minimum-order reason exactly when the order
amount is below `minOrderAmount`. -/
theorem evaluate_minOrder (now : Int) (c : Coupon) (items : List CartItem)
    (amt : ℚ) (uoc : Option Nat) (uuc : Nat)
    (hA : c.isActive = true)
    (hW : c.validFrom ≤ now ∧ now ≤ c.validUntil)
    (hF : c.isFirstTimeOnly = false) :
    evaluate now c items amt uoc uuc = .error .minOrderNotMet ↔
      amt < c.minOrderAmount := by
  unfold evaluate
  rw [if_neg (by simp [hA]), if_neg (by simp [hW.1, hW.2]),
      if_neg (by simp [hF])]
  by_cases hm : minOrderCheck c amt
  · rw [if_neg (by simpa using hm)]
    constructor
    · intro h
      split_ifs at h <;> simp_all
    · intro h
      exfalso
      simp only [minOrderCheck, decide_eq_true_eq] at hm
      linarith
  · rw [if_pos (by simpa using hm)]
    simp only [minOrderCheck, decide_eq_true_eq] at hm
    simp [lt_of_not_le hm]

/-- C6 witness: a coupon with `minOrderAmount = 500` (otherwise like the
seeded VIBE10 but uncapped) rejects subtotal 499 with the minimum-order
reason and accepts subtotal 500 (yielding its 10% discount). -/
theorem evaluate_minOrder_witness :
    evaluate 0 { vibe10Seed 0 with minOrderAmount := 500, maxDiscount := none }
        [] 499 none 0 = .error .minOrderNotMet ∧
    evaluate 0 { vibe10Seed 0 with minOrderAmount := 500, maxDiscount := none }
        [] 500 none 0 = .ok 50 := by
  constructor
  · exact (evaluate_minOrder 0 _ [] 499 none 0 (by simp [vibe10Seed])
      (by constructor <;> simp [vibe10Seed]) (by simp [vibe10Seed])).mpr
      (by norm_num [vibe10Seed])
  · simp only [evaluate, minOrderCheck, vibe10Seed, discountableBase,
      computeDiscount, roundHalfUp2]
    norm_num
    simp

/-- C1 counterexample: the admin status route accepts a backward
transition.  On an order in terminal-side status "delivered" the request
to set status "pending" succeeds (returning the updated collection)
instead of failing with `InvalidTransitionError` — the handler performs
no transition validation at all. -/
theorem adminSetOrderStatus_backward_accepted :
    adminSetOrderStatus [{ id := 1, orderStatus := "delivered" }] 1 "pending"
      = .ok [{ id := 1, orderStatus := "pending" }] := by
  simp [adminSetOrderStatus]

/-- C1 (amended): `setStatus(orderId, newStatus)` as implemented stores
any requested status string unconditionally whenever the order exists —
no forward-only restriction, no terminal-state protection and no
`InvalidTransitionError`; its only failure is not-found on an unknown
order id, in which case nothing changes. -/
theorem adminSetOrderStatus_unrestricted (orders : List AdminOrder)
    (id : Nat) (status : String) :
    ((∃ o ∈ orders, o.id = id) →
      adminSetOrderStatus orders id status =
        .ok (orders.map (fun o =>
          if o.id = id then { o with orderStatus := status } else o)))
    ∧ ((∀ o ∈ orders, o.id ≠ id) →
      adminSetOrderStatus orders id status = .error .notFound) := by
  constructor
  · rintro ⟨o, ho, hid⟩
    unfold adminSetOrderStatus
    rw [if_neg]
    simp only [List.all_eq_true, decide_eq_true_eq, not_forall]
    exact ⟨o, ho, by simp [hid]⟩
  · intro h
    unfold adminSetOrderStatus
    rw [if_pos]
    simp only [List.all_eq_true, decide_eq_true_eq]
    exact h

/-- C1 witness for the amended theorem: concrete instances of both
branches — an existing order gets the arbitrary status stored, an
unknown id yields not-found. -/
theorem adminSetOrderStatus_unrestricted_witness :
    adminSetOrderStatus [{ id := 1, orderStatus := "delivered" }] 1 "shipped"
      = .ok [{ id := 1, orderStatus := "shipped" }] ∧
    adminSetOrderStatus [{ id := 1, orderStatus := "delivered" }] 2 "shipped"
      = .error .notFound := by
  constructor
  · have h := (adminSetOrderStatus_unrestricted
      [{ id := 1, orderStatus := "delivered" }] 1 "shipped").1
      ⟨{ id := 1, orderStatus := "delivered" }, by simp, rfl⟩
    simpa using h
  · exact (adminSetOrderStatus_unrestricted
      [{ id := 1, orderStatus := "delivered" }] 2 "shipped").2
      (by simp)

/-- C9 counterexample: the string value "true" is not a boolean, yet the
status-toggle request passes validation and succeeds (express-validator's
default `isBoolean()` accepts the strings "true"/"false"/"0"/"1"),
contradicting "with a non-boolean isActive it fails validation". -/
theorem patchCategoryStatus_string_accepted :
    JVal.str "true" ≠ JVal.bool true ∧ JVal.str "true" ≠ JVal.bool false ∧
    patchCategoryStatus
        [{ id := 1, name := "Snacks", description := none, image := none,
           isActive := false }] 1 (.str "true")
      = .ok [{ id := 1, name := "Snacks", description := none, image := none,
               isActive := true }] := by
  refine ⟨by simp, by simp, ?_⟩
  simp [patchCategoryStatus, JVal.isBooleanLoose, JVal.castBool, JVal.asString]

/-- C9 (amended): the status toggle fails validation exactly when
`isActive` does not stringify to one of "true", "false", "0", "1"
(boolean values always pass; those strings/numbers also pass and are
cast to a boolean); with a passing value and an unknown id it fails
not-found leaving the collection unchanged, and with a known id it
rewrites only the `isActive` field of the matching category, leaving
`name`, `description` and `image` of every category unchanged. -/
theorem patchCategoryStatus_spec (cats : List Category) (id : Nat) (v : JVal) :
    (v.isBooleanLoose = false →
      patchCategoryStatus cats id v = .error .validation)
    ∧ (v.isBooleanLoose = true → (∀ c ∈ cats, c.id ≠ id) →
      patchCategoryStatus cats id v = .error .notFound)
    ∧ (v.isBooleanLoose = true → (∃ c ∈ cats, c.id = id) →
      patchCategoryStatus cats id v =
        .ok (cats.map (fun c =>
          if c.id = id then { c with isActive := v.castBool } else c)))
    ∧ (∀ c : Category,
        (if c.id = id then { c with isActive := v.castBool } else c).name = c.name
        ∧ (if c.id = id then { c with isActive := v.castBool } else c).description
            = c.description
        ∧ (if c.id = id then { c with isActive := v.castBool } else c).image
            = c.image) := by
  refine ⟨?_, ?_, ?_, ?_⟩
  · intro hv
    unfold patchCategoryStatus
    rw [if_pos (by simp [hv])]
  · intro hv h
    unfold patchCategoryStatus
    rw [if_neg (by simp [hv]), if_pos]
    simp only [List.all_eq_true, decide_eq_true_eq]
    exact h
  · rintro hv ⟨c, hc, hid⟩
    unfold patchCategoryStatus
    rw [if_neg (by simp [hv]), if_neg]
    simp only [List.all_eq_true, decide_eq_true_eq, not_forall]
    exact ⟨c, hc, by simp [hid]⟩
  · intro c
    by_cases h : c.id = id <;> simp [h]

/-- C9 witness for the amended theorem: a genuine boolean toggles only
`isActive` of the matching category, a non-boolean-like string fails
validation, and an unknown id yields not-found. -/
theorem patchCategoryStatus_spec_witness :
    patchCategoryStatus
        [{ id := 1, name := "Snacks", description := some "d",
           image := some "http://x.example/i.png", isActive := false }]
        1 (.bool true)
      = .ok [{ id := 1, name := "Snacks", description := some "d",
               image := some "http://x.example/i.png", isActive := true }] ∧
    patchCategoryStatus
        [{ id := 1, name := "Snacks", description := none, image := none,
           isActive := false }] 1 (.str "yes") = .error .validation ∧
    patchCategoryStatus
        [{ id := 1, name := "Snacks", description := none, image := none,
           isActive := false }] 7 (.bool false) = .error .notFound := by
  refine ⟨?_, ?_, ?_⟩
  · have h := (patchCategoryStatus_spec
      [{ id := 1, name := "Snacks", description := some "d",
         image := some "http://x.example/i.png", isActive := false }]
      1 (.bool true)).2.2.1 (by simp [JVal.isBooleanLoose, JVal.asString])
      ⟨{ id := 1, name := "Snacks", description := some "d",
         image := some "http://x.example/i.png", isActive := false },
       by simp, rfl⟩
    simpa [JVal.castBool, JVal.asString] using h
  · exact (patchCategoryStatus_spec _ 1 (.str "yes")).1
      (by simp [JVal.isBooleanLoose, JVal.asString])
  · exact (patchCategoryStatus_spec _ 7 (.bool false)).2.1
      (by simp [JVal.isBooleanLoose, JVal.asString]) (by simp)

/-- C10: a creation request whose trimmed name equals an existing
category's name (and which passes field validation) fails with
"Category already exists" and creates nothing; consequently a
successful create preserves uniqueness of category names. -/
theorem createCategory_unique (cats : List Category) (fid : Nat)
    (name : String) (d i : Option String)
    (hv : (nameLenOk name && descOk d && imageOk i) = true) :
    ((cats.any fun c => c.name == jsTrim name) = true →
      createCategory cats fid name d i = .error .alreadyExists)
    ∧ (∀ cats', createCategory cats fid name d i = .ok cats' →
        (cats.map Category.name).Nodup → (cats'.map Category.name).Nodup) := by
  constructor
  · intro h
    unfold createCategory
    rw [if_neg (by simp [hv])]
    simp only [h, if_true]
  · intro cats' hok hnodup
    unfold createCategory at hok
    rw [if_neg (by simp [hv])] at hok
    by_cases h : (cats.any fun c => c.name == jsTrim name) = true
    · simp [h] at hok
    · rw [if_neg (by simpa using h)] at hok
      injection hok with hok
      subst hok
      have hnm : jsTrim name ∉ cats.map Category.name := by
        intro hmem
        rw [List.mem_map] at hmem
        obtain ⟨c, hc, hcn⟩ := hmem
        exact h (List.any_eq_true.mpr ⟨c, hc, by simp [hcn]⟩)
      simp only [List.map_append, List.map_cons, List.map_nil,
        List.nodup_append, List.nodup_cons, List.nodup_nil,
        List.disjoint_singleton]
      exact ⟨hnodup, by simp, hnm⟩

/-- C10 witness: creating "Snacks" when a category "Snacks" exists fails
with the duplicate error; creating a fresh "Chips" succeeds and the name
list stays duplicate-free. -/
theorem createCategory_unique_witness :
    createCategory
        [{ id := 1, name := "Snacks", description := none, image := none,
           isActive := true }] 2 "Snacks" none none = .error .alreadyExists ∧
    ((([{ id := 1, name := "Snacks", description := none, image := none,
          isActive := true },
        { id := 2, name := "Chips", description := none, image := none,
          isActive := true }] : List Category).map Category.name).Nodup) := by
  constructor
  · exact (createCategory_unique _ 2 "Snacks" none none (by decide)).1 (by decide)
  · exact (createCategory_unique
        [{ id := 1, name := "Snacks", description := none, image := none,
           isActive := true }] 2 "Chips" none none (by decide)).2
      _ rfl (by decide)

/-- C4: `requestCancel` succeeds exactly when the order's status is
pending, confirmed or processing and no cancel/return request is already
pending; success creates a pending cancel request (leaving status and
items alone); in every other situation it fails with
`InvalidStateError` (in particular for shipped, delivered and cancelled
orders and when a request is already pending). -/
theorem requestCancel_spec (o : Order) (rsn dsc : String) :
    ((∃ o', requestCancel o rsn dsc = .ok o') ↔
      ((o.orderStatus = .pending ∨ o.orderStatus = .confirmed ∨
        o.orderStatus = .processing) ∧ hasPendingRequest o = false))
    ∧ (∀ o', requestCancel o rsn dsc = .ok o' →
        o'.orderStatus = o.orderStatus ∧ o'.items = o.items ∧
        o'.request = some
          { rtype := .cancel, reason := rsn, description := dsc,
            status := .pending, adminNotes := none, refundAmount := none })
    ∧ ((¬ (o.orderStatus = .pending ∨ o.orderStatus = .confirmed ∨
           o.orderStatus = .processing) ∨ hasPendingRequest o = true) →
        requestCancel o rsn dsc = .error .invalidState) := by
  unfold requestCancel
  by_cases h1 : (o.orderStatus = .pending ∨ o.orderStatus = .confirmed ∨
      o.orderStatus = .processing)
  · rw [if_neg (not_not_intro h1)]
    by_cases h2 : hasPendingRequest o
    · rw [if_pos h2]
      refine ⟨?_, ?_, ?_⟩
      · simp [h2]
      · intro o' h
        simp at h
      · intro _
        rfl
    · rw [if_neg h2]
      refine ⟨?_, ?_, ?_⟩
      · constructor
        · intro _
          exact ⟨h1, by simpa using h2⟩
        · intro _
          exact ⟨_, rfl⟩
      · intro o' h
        injection h with h
        subst h
        exact ⟨rfl, rfl, rfl⟩
      · rintro (hc | hc)
        · exact absurd h1 hc
        · exact absurd hc (by simpa using h2)
  · rw [if_pos h1]
    refine ⟨?_, ?_, ?_⟩
    · simp [h1]
    · intro o' h
      simp at h
    · intro _
      rfl

/-- C4 witness: a processing order with no pending request can request
cancellation, a shipped order cannot. -/
theorem requestCancel_spec_witness :
    (∃ o', requestCancel
      { items := [], couponCode := none, discount := 0, total := 0,
        orderStatus := .processing, request := none } "changed_mind" "d"
      = .ok o')
    ∧ requestCancel
      { items := [], couponCode := none, discount := 0, total := 0,
        orderStatus := .shipped, request := none } "changed_mind" "d"
      = .error .invalidState := by
  constructor
  · exact (requestCancel_spec _ "changed_mind" "d").1.mpr
      ⟨by simp, by simp [hasPendingRequest]⟩
  · exact (requestCancel_spec _ "changed_mind" "d").2.2 (by simp)

/-! ## Supporting lemmas about the order service -/

theorem lookupEntry_key {st : List StockEntry} {pr : Nat} {szv : String}
    {e : StockEntry} (h : lookupEntry st pr szv = some e) :
    e ∈ st ∧ e.product = pr ∧ e.size = szv := by
  unfold lookupEntry at h
  have hp := List.find?_some h
  simp only [Bool.and_eq_true, beq_iff_eq] at hp
  exact ⟨List.mem_of_find?_eq_some h, hp.1, hp.2⟩

theorem lookupEntry_of_mem {st : List StockEntry} {e : StockEntry}
    (hW : (st.map (fun x => (x.product, x.size))).Nodup) (he : e ∈ st) :
    lookupEntry st e.product e.size = some e := by
  unfold lookupEntry
  induction st with
  | nil => cases he
  | cons a t ih =>
      simp only [List.map_cons, List.nodup_cons] at hW
      rcases List.mem_cons.mp he with rfl | ht
      · rw [List.find?_cons_of_pos _ (by simp)]
      · have hne : ¬ ((fun x => x.product == e.product && x.size == e.size) a)
            = true := by
          intro hc
          simp only [Bool.and_eq_true, beq_iff_eq] at hc
          exact hW.1 (by
            rw [show (a.product, a.size) = (e.product, e.size) by
              rw [hc.1, hc.2]]
            exact List.mem_map_of_mem _ ht)
        rw [List.find?_cons_of_neg
          (p := fun x => x.product == e.product && x.size == e.size) t hne]
        exact ih hW.2 ht

theorem lookupEntry_decrementStock (st : List StockEntry)
    (items : List ItemReq) (pr : Nat) (szv : String) :
    lookupEntry (decrementStock st items) pr szv
      = (lookupEntry st pr szv).map
          (fun e => { e with stock := e.stock - sumQty items e.product e.size }) := by
  unfold lookupEntry decrementStock
  induction st with
  | nil => simp
  | cons a t ih =>
      rw [List.map_cons]
      by_cases hp : ((fun x => x.product == pr && x.size == szv) a) = true
      · have hL : List.find? (fun x => x.product == pr && x.size == szv)
            (({ a with stock := a.stock - sumQty items a.product a.size } :
                StockEntry) ::
              t.map (fun e =>
                { e with stock := e.stock - sumQty items e.product e.size }))
            = some { a with stock := a.stock - sumQty items a.product a.size } :=
          List.find?_cons_of_pos _ (by simpa using hp)
        have hR : List.find? (fun x => x.product == pr && x.size == szv) (a :: t)
            = some a := List.find?_cons_of_pos t hp
        rw [hL, hR]
        rfl
      · have hL : List.find? (fun x => x.product == pr && x.size == szv)
            (({ a with stock := a.stock - sumQty items a.product a.size } :
                StockEntry) ::
              t.map (fun e =>
                { e with stock := e.stock - sumQty items e.product e.size }))
            = List.find? (fun x => x.product == pr && x.size == szv)
                (t.map (fun e =>
                  { e with stock := e.stock - sumQty items e.product e.size })) :=
          List.find?_cons_of_neg _ (by simpa using hp)
        have hR : List.find? (fun x => x.product == pr && x.size == szv) (a :: t)
            = List.find? (fun x => x.product == pr && x.size == szv) t :=
          List.find?_cons_of_neg t hp
        rw [hL, hR]
        exact ih

theorem sumQty_le_stock {st : List StockEntry} {items : List ItemReq}
    {e : StockEntry}
    (hW : (st.map (fun x => (x.product, x.size))).Nodup)
    (hoff : stockOffenders st items = []) (he : e ∈ st) :
    sumQty items e.product e.size ≤ e.stock := by
  by_cases hq : sumQty items e.product e.size = 0
  · simp [hq]
  · have hex : ∃ r ∈ items,
        ((fun r => r.product == e.product && r.size == e.size) r) = true := by
      by_contra hco
      push_neg at hco
      apply hq
      unfold sumQty
      rw [List.filter_eq_nil_iff.mpr (fun r hr => hco r hr)]
      rfl
    obtain ⟨r, hr, hpred⟩ := hex
    have hkey : r.product = e.product ∧ r.size = e.size := by
      simpa using hpred
    have hlook : lookupEntry st r.product r.size = some e := by
      rw [hkey.1, hkey.2]
      exact lookupEntry_of_mem hW he
    unfold stockOffenders at hoff
    have hofr := List.filter_eq_nil_iff.mp hoff r hr
    simp only [hlook, decide_eq_true_eq] at hofr
    rw [← hkey.1, ← hkey.2]
    omega

theorem snapshot_filter_qty (st : List StockEntry) (items : List ItemReq)
    (pr : Nat) (szv : String) :
    (((snapshotItems st items).filter
        (fun r => r.product == pr && r.size == szv)).map
      (fun r => r.quantity)).sum = sumQty items pr szv := by
  unfold snapshotItems sumQty
  rw [List.filter_map, List.map_map]
  rfl

theorem restore_decrement (st : List StockEntry) (items : List ItemReq)
    (hW : (st.map (fun x => (x.product, x.size))).Nodup)
    (hoff : stockOffenders st items = []) :
    restoreStock (decrementStock st items) (snapshotItems st items) = st := by
  unfold restoreStock decrementStock
  rw [List.map_map]
  have key : ∀ e ∈ st, ((fun x =>
      ({ x with stock := x.stock +
          (((snapshotItems st items).filter
              (fun r => r.product == x.product && r.size == x.size)).map
            (fun r => r.quantity)).sum } : StockEntry)) ∘
      (fun x => ({ x with stock := x.stock - sumQty items x.product x.size } :
        StockEntry))) e = e := by
    intro e he
    have hle := sumQty_le_stock hW hoff he
    have hq := snapshot_filter_qty st items e.product e.size
    cases e with
    | mk prod szf cat price stock =>
        dsimp only [Function.comp] at hq ⊢
        rw [hq, Nat.sub_add_cancel hle]
  calc st.map _ = st.map id := List.map_congr_left key
    _ = st := List.map_id st
theorem snapshotItems_price {st : List StockEntry} {items : List ItemReq}
    (hM : ∀ e ∈ st, 0 ≤ e.price ∧ isCents e.price) :
    ∀ it ∈ snapshotItems st items, 0 ≤ it.price ∧ isCents it.price := by
  intro it hit
  unfold snapshotItems at hit
  rw [List.mem_map] at hit
  obtain ⟨r, hr, rfl⟩ := hit
  dsimp only
  cases hl : lookupEntry st r.product r.size with
  | none =>
      simp only [hl, Option.map_none', Option.getD_none]
      exact ⟨le_refl 0, isCents_zero⟩
  | some e =>
      have he := (lookupEntry_key hl).1
      simpa [hl] using hM e he

theorem cartOfReqs_price {st : List StockEntry} {items : List ItemReq}
    (hM : ∀ e ∈ st, 0 ≤ e.price ∧ isCents e.price) :
    ∀ it ∈ cartOfReqs st items, 0 ≤ it.price ∧ isCents it.price := by
  intro it hit
  unfold cartOfReqs at hit
  rw [List.mem_map] at hit
  obtain ⟨r, hr, rfl⟩ := hit
  dsimp only
  cases hl : lookupEntry st r.product r.size with
  | none =>
      simp only [hl, Option.map_none', Option.getD_none]
      exact ⟨le_refl 0, isCents_zero⟩
  | some e =>
      have he := (lookupEntry_key hl).1
      simpa [hl] using hM e he

theorem itemsSubtotal_nonneg {items : List OrderItem}
    (h : ∀ it ∈ items, 0 ≤ it.price) : 0 ≤ itemsSubtotal items := by
  unfold itemsSubtotal
  apply List.sum_nonneg
  intro q hq
  rw [List.mem_map] at hq
  obtain ⟨it, hit, rfl⟩ := hq
  exact mul_nonneg (h it hit) (by positivity)

theorem itemsSubtotal_isCents {items : List OrderItem}
    (h : ∀ it ∈ items, isCents it.price) : isCents (itemsSubtotal items) := by
  unfold itemsSubtotal
  apply isCents_listSum
  intro q hq
  rw [List.mem_map] at hq
  obtain ⟨it, hit, rfl⟩ := hq
  exact isCents_mul_nat (h it hit) _

theorem cart_sum_eq (st : List StockEntry) (items : List ItemReq) :
    ((cartOfReqs st items).map (fun i => i.price * (i.quantity : ℚ))).sum
      = itemsSubtotal (snapshotItems st items) := by
  unfold cartOfReqs snapshotItems itemsSubtotal
  rw [List.map_map, List.map_map]
  rfl

theorem filter_map_sum_le {α : Type} (f : α → ℚ) (q : α → Bool) (l : List α)
    (h : ∀ a ∈ l, 0 ≤ f a) :
    ((l.filter q).map f).sum ≤ (l.map f).sum := by
  induction l with
  | nil => simp
  | cons a t ih =>
      have ha := h a (by simp)
      have ht := ih (fun x hx => h x (by simp [hx]))
      by_cases hq : q a = true
      · simp only [List.filter_cons]
        rw [if_pos hq]
        simp only [List.map_cons, List.sum_cons]
        linarith
      · simp only [List.filter_cons]
        rw [if_neg hq]
        simp only [List.map_cons, List.sum_cons]
        linarith

theorem discountableBase_bounds (c : Coupon) (cart : List CartItem) (amt : ℚ)
    (hp : ∀ i ∈ cart, 0 ≤ i.price ∧ isCents i.price)
    (ha : 0 ≤ amt) (hac : isCents amt)
    (hsum : ((cart.map (fun i => i.price * (i.quantity : ℚ))).sum) = amt) :
    0 ≤ discountableBase c cart amt ∧ discountableBase c cart amt ≤ amt ∧
    isCents (discountableBase c cart amt) := by
  unfold discountableBase
  by_cases hc : c.categories.isEmpty
  · simp [hc, ha, hac]
  · rw [if_neg (by simpa using hc)]
    refine ⟨?_, ?_, ?_⟩
    · apply List.sum_nonneg
      intro q hq
      rw [List.mem_map] at hq
      obtain ⟨i, hi, rfl⟩ := hq
      exact mul_nonneg (hp i (List.mem_of_mem_filter hi)).1 (by positivity)
    · rw [← hsum]
      exact filter_map_sum_le _ _ _
        (fun i hi => mul_nonneg (hp i hi).1 (by positivity))
    · apply isCents_listSum
      intro q hq
      rw [List.mem_map] at hq
      obtain ⟨i, hi, rfl⟩ := hq
      exact isCents_mul_nat (hp i (List.mem_of_mem_filter hi)).2 _

theorem evaluate_ok {now : Int} {c : Coupon} {cart : List CartItem} {amt : ℚ}
    {uoc : Option Nat} {uuc : Nat} {d : ℚ}
    (h : evaluate now c cart amt uoc uuc = .ok d) :
    d = computeDiscount c (discountableBase c cart amt) := by
  unfold evaluate at h
  split_ifs at h <;> simp_all

/-- Everything a successful `createOrder` guarantees: the order snapshot,
pending status, the total/discount relation, the decremented state, the
passed stock checks, and the coupon facts per branch. -/
theorem createOrder_ok {s : State} {items : List ItemReq} {cc : Option String}
    {uoc : Option Nat} {uuc : Nat} {now : Int} {o : Order} {s' : State}
    (h : createOrder s items cc uoc uuc now = .ok (o, s')) :
    o.items = snapshotItems s.stock items ∧
    o.orderStatus = .pending ∧
    o.request = none ∧
    o.total = itemsSubtotal (snapshotItems s.stock items) - o.discount ∧
    s'.stock = decrementStock s.stock items ∧
    (∀ r ∈ items, (lookupEntry s.stock r.product r.size).isSome = true) ∧
    stockOffenders s.stock items = [] ∧
    (cc = none → o.discount = 0 ∧ s'.coupons = s.coupons) ∧
    (∀ code, cc = some code →
      ∃ c, s.coupons.find? (fun x => x.code == code) = some c ∧
        evaluate now c (cartOfReqs s.stock items)
          (itemsSubtotal (snapshotItems s.stock items)) uoc uuc
          = .ok o.discount ∧
        s'.coupons = incrementUsage s.coupons code) := by
  unfold createOrder at h
  by_cases h1 : (items.any
      (fun r => (lookupEntry s.stock r.product r.size).isNone)) = true
  · rw [if_pos h1] at h
    simp at h
  · rw [if_neg h1] at h
    have hres : ∀ r ∈ items,
        (lookupEntry s.stock r.product r.size).isSome = true := by
      intro r hr
      cases hl : lookupEntry s.stock r.product r.size with
      | some e => simp
      | none => exact absurd (List.any_eq_true.mpr ⟨r, hr, by simp [hl]⟩) h1
    by_cases h2 : stockOffenders s.stock items ≠ []
    · rw [if_pos h2] at h
      simp at h
    · rw [if_neg h2] at h
      have hoff : stockOffenders s.stock items = [] := not_not.mp h2
      cases cc with
      | none =>
          simp only [Except.ok.injEq, Prod.mk.injEq] at h
          obtain ⟨ho, hs⟩ := h
          subst ho
          subst hs
          refine ⟨rfl, rfl, rfl, by simp, rfl, hres, hoff,
            fun _ => ⟨rfl, rfl⟩, fun code hcode => by simp at hcode⟩
      | some code =>
          cases hf : s.coupons.find? (fun x => x.code == code) with
          | none =>
              simp only [hf] at h
              simp at h
          | some c =>
              simp only [hf] at h
              cases he : evaluate now c (cartOfReqs s.stock items)
                  (itemsSubtotal (snapshotItems s.stock items)) uoc uuc with
              | error r =>
                  simp only [he] at h
                  simp at h
              | ok d =>
                  simp only [he, Except.ok.injEq, Prod.mk.injEq] at h
                  obtain ⟨ho, hs⟩ := h
                  subst ho
                  subst hs
                  refine ⟨rfl, rfl, rfl, rfl, rfl, hres, hoff,
                    by simp, ?_⟩
                  intro code2 hc2
                  injection hc2 with hc2
                  subst hc2
                  exact ⟨c, hf, he, rfl⟩

/-- The order invariant of spec §3: the stored total is the line-item
subtotal minus the stored discount, and it is nonnegative. -/
def TotalInvariant (o : Order) : Prop :=
  o.total = itemsSubtotal o.items - o.discount ∧ 0 ≤ o.total

theorem requestCancel_frame {o o' : Order} {rsn dsc : String}
    (h : requestCancel o rsn dsc = .ok o') :
    o'.total = o.total ∧ o'.items = o.items ∧ o'.discount = o.discount := by
  unfold requestCancel at h
  split_ifs at h <;> simp_all
  subst h
  exact ⟨rfl, rfl, rfl⟩

theorem requestReturn_frame {o o' : Order} {rsn dsc : String}
    {now deliveredAt window : Int}
    (h : requestReturn o rsn dsc now deliveredAt window = .ok o') :
    o'.total = o.total ∧ o'.items = o.items ∧ o'.discount = o.discount := by
  unfold requestReturn at h
  split_ifs at h <;> simp_all
  subst h
  exact ⟨rfl, rfl, rfl⟩

theorem processCancelRequest_frame {o o' : Order} {st st' : List StockEntry}
    {app : Bool} {notes : String}
    (h : processCancelRequest o st app notes = .ok (o', st')) :
    o'.total = o.total ∧ o'.items = o.items ∧ o'.discount = o.discount := by
  unfold processCancelRequest at h
  cases hr : o.request with
  | none => simp [hr] at h
  | some r =>
      simp only [hr] at h
      split_ifs at h <;>
        first
        | (simp only [Except.ok.injEq, Prod.mk.injEq] at h
           obtain ⟨ho, h2⟩ := h
           subst ho
           exact ⟨rfl, rfl, rfl⟩)
        | simp at h

theorem processReturnRequest_frame {o o' : Order} {app : Bool} {ra : ℚ}
    {notes : String} (h : processReturnRequest o app ra notes = .ok o') :
    o'.total = o.total ∧ o'.items = o.items ∧ o'.discount = o.discount := by
  unfold processReturnRequest at h
  cases hr : o.request with
  | none => simp [hr] at h
  | some r =>
      simp only [hr] at h
      split_ifs at h <;>
        first
        | (simp only [Except.ok.injEq] at h
           subst h
           exact ⟨rfl, rfl, rfl⟩)
        | simp at h

theorem specSetStatus_frame {o o' : Order} {ns : OrderStatus}
    (h : specSetStatus o ns = .ok o') :
    o'.total = o.total ∧ o'.items = o.items ∧ o'.discount = o.discount := by
  unfold specSetStatus at h
  split_ifs at h <;>
    first
    | (simp only [Except.ok.injEq] at h
       subst h
       exact ⟨rfl, rfl, rfl⟩)
    | simp at h

theorem invariant_of_frame {o o' : Order}
    (hf : o'.total = o.total ∧ o'.items = o.items ∧ o'.discount = o.discount)
    (hi : TotalInvariant o) : TotalInvariant o' := by
  obtain ⟨ht, hit, hd⟩ := hf
  exact ⟨by rw [ht, hit, hd]; exact hi.1, by rw [ht]; exact hi.2⟩

/-- C2: an order created by `createOrder` (over an inventory whose prices
are nonnegative amounts on the two-decimal money grid) satisfies
`total = Σ price·qty − discount` and `total ≥ 0`, and every permitted
mutation of the state machine — cancel request, admin cancel processing,
admin return processing, spec-conform status update, and return
request — changes neither items, discount nor total, hence preserves the
invariant. -/
theorem order_total_invariant
    (s : State) (items : List ItemReq) (cc : Option String) (uoc : Option Nat)
    (uuc : Nat) (now : Int) (o : Order) (s' : State)
    (p p' : Order) (rsn dsc notes : String)
    (q q' : Order) (qst qst' : List StockEntry) (qapp : Bool)
    (w w' : Order) (wapp : Bool) (ra : ℚ)
    (v v' : Order) (ns : OrderStatus)
    (u u' : Order) (unow udel uwin : Int)
    (hM : ∀ e ∈ s.stock, 0 ≤ e.price ∧ isCents e.price) :
    (createOrder s items cc uoc uuc now = .ok (o, s') → TotalInvariant o)
    ∧ (TotalInvariant p → requestCancel p rsn dsc = .ok p' →
        TotalInvariant p')
    ∧ (TotalInvariant q → processCancelRequest q qst qapp notes = .ok (q', qst')
        → TotalInvariant q')
    ∧ (TotalInvariant w → processReturnRequest w wapp ra notes = .ok w' →
        TotalInvariant w')
    ∧ (TotalInvariant v → specSetStatus v ns = .ok v' → TotalInvariant v')
    ∧ (TotalInvariant u → requestReturn u rsn dsc unow udel uwin = .ok u' →
        TotalInvariant u') := by
  refine ⟨?_, ?_, ?_, ?_, ?_, ?_⟩
  · intro h
    obtain ⟨hitems, _, _, htotal, _, hres, hoff, hnone, hsome⟩ := createOrder_ok h
    have hsp := @snapshotItems_price s.stock items hM
    have hsub0 : 0 ≤ itemsSubtotal (snapshotItems s.stock items) :=
      itemsSubtotal_nonneg (fun it hit => (hsp it hit).1)
    have hsubc : isCents (itemsSubtotal (snapshotItems s.stock items)) :=
      itemsSubtotal_isCents (fun it hit => (hsp it hit).2)
    refine ⟨by rw [htotal, hitems], ?_⟩
    cases cc with
    | none =>
        obtain ⟨hd, _⟩ := hnone rfl
        rw [htotal, hd]
        simpa using hsub0
    | some code =>
        obtain ⟨c, hf, he, _⟩ := hsome code rfl
        have hd := evaluate_ok he
        have hcart := @cartOfReqs_price s.stock items hM
        have hbb := discountableBase_bounds c (cartOfReqs s.stock items)
          (itemsSubtotal (snapshotItems s.stock items)) hcart hsub0 hsubc
          (cart_sum_eq s.stock items)
        have hcd := computeDiscount_bounds_core c _ hbb.1 hbb.2.2
        rw [htotal, ← hd] at *
        have hle : o.discount ≤ itemsSubtotal (snapshotItems s.stock items) :=
          le_trans (hd ▸ hcd.2.1) hbb.2.1
        linarith
  · intro hi h
    exact invariant_of_frame (requestCancel_frame h) hi
  · intro hi h
    exact invariant_of_frame (processCancelRequest_frame h) hi
  · intro hi h
    exact invariant_of_frame (processReturnRequest_frame h) hi
  · intro hi h
    exact invariant_of_frame (specSetStatus_frame h) hi
  · intro hi h
    exact invariant_of_frame (requestReturn_frame h) hi

/-- C2 witness: a concrete creation (two units at price 100, no coupon)
yields an order satisfying the invariant, and the invariant survives a
cancel request on that order. -/
theorem order_total_invariant_witness :
    TotalInvariant
      { items := [{ product := 1, size := "g", price := 100, quantity := 2 }],
        couponCode := none, discount := 0, total := 200,
        orderStatus := .pending, request := none }
    ∧ TotalInvariant
      { items := [{ product := 1, size := "g", price := 100, quantity := 2 }],
        couponCode := none, discount := 0, total := 200,
        orderStatus := .pending,
        request := some
          { rtype := .cancel, reason := "r", description := "d",
            status := .pending, adminNotes := none, refundAmount := none } } := by
  have hM : ∀ e ∈ ({ stock := [⟨1, "g", "c", 100, 5⟩], coupons := [] } :
      State).stock, 0 ≤ e.price ∧ isCents e.price := by
    intro e he
    simp only [List.mem_singleton] at he
    subst he
    exact ⟨by norm_num, by simp only [isCents]; norm_num⟩
  have hco : createOrder { stock := [⟨1, "g", "c", 100, 5⟩], coupons := [] }
      [⟨1, "g", 2⟩] none none 0 0
      = .ok ({ items := [{ product := 1, size := "g", price := 100,
                           quantity := 2 }],
               couponCode := none, discount := 0, total := 200,
               orderStatus := .pending, request := none },
             { stock := [⟨1, "g", "c", 100, 3⟩], coupons := [] }) := by
    simp [createOrder, lookupEntry, stockOffenders, sumQty, snapshotItems,
          cartOfReqs, itemsSubtotal, decrementStock]
    norm_num
  have hrc : requestCancel
      { items := [{ product := 1, size := "g", price := 100, quantity := 2 }],
        couponCode := none, discount := 0, total := 200,
        orderStatus := OrderStatus.pending, request := none } "r" "d"
      = .ok { items := [{ product := 1, size := "g", price := 100,
                          quantity := 2 }],
              couponCode := none, discount := 0, total := 200,
              orderStatus := .pending,
              request := some
                { rtype := .cancel, reason := "r", description := "d",
                  status := .pending, adminNotes := none,
                  refundAmount := none } } := by
    simp [requestCancel, hasPendingRequest]
  have hmain := order_total_invariant
    { stock := [⟨1, "g", "c", 100, 5⟩], coupons := [] } [⟨1, "g", 2⟩]
    none none 0 0
    { items := [{ product := 1, size := "g", price := 100, quantity := 2 }],
      couponCode := none, discount := 0, total := 200,
      orderStatus := .pending, request := none }
    { stock := [⟨1, "g", "c", 100, 3⟩], coupons := [] }
    { items := [{ product := 1, size := "g", price := 100, quantity := 2 }],
      couponCode := none, discount := 0, total := 200,
      orderStatus := .pending, request := none }
    { items := [{ product := 1, size := "g", price := 100, quantity := 2 }],
      couponCode := none, discount := 0, total := 200,
      orderStatus := .pending,
      request := some
        { rtype := .cancel, reason := "r", description := "d",
          status := .pending, adminNotes := none, refundAmount := none } }
    "r" "d" "n"
    { items := [], couponCode := none, discount := 0, total := 0,
      orderStatus := .pending, request := none }
    { items := [], couponCode := none, discount := 0, total := 0,
      orderStatus := .pending, request := none }
    [] [] true
    { items := [], couponCode := none, discount := 0, total := 0,
      orderStatus := .pending, request := none }
    { items := [], couponCode := none, discount := 0, total := 0,
      orderStatus := .pending, request := none }
    true 0
    { items := [], couponCode := none, discount := 0, total := 0,
      orderStatus := .pending, request := none }
    { items := [], couponCode := none, discount := 0, total := 0,
      orderStatus := .pending, request := none }
    .pending
    { items := [], couponCode := none, discount := 0, total := 0,
      orderStatus := .pending, request := none }
    { items := [], couponCode := none, discount := 0, total := 0,
      orderStatus := .pending, request := none }
    0 0 0 hM
  exact ⟨hmain.1 hco, hmain.2.1 (hmain.1 hco) hrc⟩

/-- C7: on an order whose lines all resolve and pass the stock check,
supplying a coupon code means: if the evaluator rejects, the entire
creation fails with exactly the evaluator's reason (wrapped in
`CouponRejectedError`) and nothing is persisted; if the code does not
resolve to a coupon, creation fails likewise; and any successful
creation with a coupon code has actually run the evaluator and stored
its accepted discount — the coupon is never silently ignored. -/
theorem coupon_rejection_blocks_order
    (s : State) (items : List ItemReq) (code : String) (uoc : Option Nat)
    (uuc : Nat) (now : Int)
    (hres : ∀ r ∈ items, (lookupEntry s.stock r.product r.size).isSome = true)
    (hoff : stockOffenders s.stock items = []) :
    (∀ c rr, s.coupons.find? (fun x => x.code == code) = some c →
      evaluate now c (cartOfReqs s.stock items)
        (itemsSubtotal (snapshotItems s.stock items)) uoc uuc = .error rr →
      createOrder s items (some code) uoc uuc now
        = .error (.couponRejected rr))
    ∧ (s.coupons.find? (fun x => x.code == code) = none →
      createOrder s items (some code) uoc uuc now
        = .error (.couponRejected .couponNotFound))
    ∧ (∀ o s', createOrder s items (some code) uoc uuc now = .ok (o, s') →
      ∃ c, s.coupons.find? (fun x => x.code == code) = some c ∧
        evaluate now c (cartOfReqs s.stock items)
          (itemsSubtotal (snapshotItems s.stock items)) uoc uuc
          = .ok o.discount) := by
  have h1 : ¬ (items.any
      (fun r => (lookupEntry s.stock r.product r.size).isNone)) = true := by
    intro hc
    rw [List.any_eq_true] at hc
    obtain ⟨r, hr, hn⟩ := hc
    have hs := hres r hr
    rw [Option.isNone_iff_eq_none] at hn
    rw [hn] at hs
    simp at hs
  refine ⟨?_, ?_, ?_⟩
  · intro c rr hf he
    unfold createOrder
    rw [if_neg h1, if_neg (not_not_intro hoff)]
    simp only [hf, he]
  · intro hf
    unfold createOrder
    rw [if_neg h1, if_neg (not_not_intro hoff)]
    simp only [hf]
  · intro o s' h
    obtain ⟨_, _, _, _, _, _, _, _, hsome⟩ := createOrder_ok h
    obtain ⟨c, hf, he, _⟩ := hsome code rfl
    exact ⟨c, hf, he⟩

/-- C7 witness: with the min-order-500 coupon in the store and a cart
whose subtotal is 200, creation with its code fails carrying the
evaluator's minimum-order reason. -/
theorem coupon_rejection_blocks_order_witness :
    createOrder
      { stock := [⟨1, "g", "c", 100, 5⟩],
        coupons :=
          [{ vibe10Seed 0 with minOrderAmount := 500, maxDiscount := none }] }
      [⟨1, "g", 2⟩] (some "VIBE10") none 0 0
      = .error (.couponRejected .minOrderNotMet) := by
  refine (coupon_rejection_blocks_order
    { stock := [⟨1, "g", "c", 100, 5⟩],
      coupons :=
        [{ vibe10Seed 0 with minOrderAmount := 500, maxDiscount := none }] }
    [⟨1, "g", 2⟩] "VIBE10" none 0 0 ?_ ?_).1
    { vibe10Seed 0 with minOrderAmount := 500, maxDiscount := none }
    .minOrderNotMet ?_ ?_
  · intro r hr
    simp only [List.mem_singleton] at hr
    subst hr
    simp [lookupEntry]
  · simp [stockOffenders, lookupEntry, sumQty]
  · simp [vibe10Seed]
  · simp only [evaluate, minOrderCheck, vibe10Seed, cartOfReqs, snapshotItems,
      itemsSubtotal, lookupEntry]
    norm_num

/-- C8: when a variant has exactly one unit left, of two identical
single-unit orders executed against the shared stock state one after the
other (the spec's atomicity requirement makes each `createOrder` a single
atomic step, so the two interleavings are symmetric), the first succeeds
and the second fails with `InsufficientStockError` naming the item; and
in general a successful creation applies all its stock decrements and
its coupon-usage increment together, as one state update. -/
theorem last_unit_race
    (s : State) (pr : Nat) (szv : String) (e : StockEntry) (now : Int)
    (s2 : State) (items2 : List ItemReq) (cc2 : Option String)
    (uoc2 : Option Nat) (uuc2 : Nat) (now2 : Int) (o2 : Order) (s2' : State)
    (hl : lookupEntry s.stock pr szv = some e) (h1 : e.stock = 1) :
    (∃ o s', createOrder s [⟨pr, szv, 1⟩] none none 0 now = .ok (o, s')
       ∧ createOrder s' [⟨pr, szv, 1⟩] none none 0 now
           = .error (.insufficientStock [⟨pr, szv, 1⟩]))
    ∧ (createOrder s2 items2 cc2 uoc2 uuc2 now2 = .ok (o2, s2') →
       s2'.stock = decrementStock s2.stock items2
       ∧ (cc2 = none → s2'.coupons = s2.coupons)
       ∧ (∀ cd, cc2 = some cd → s2'.coupons = incrementUsage s2.coupons cd)) := by
  constructor
  · have hkey := lookupEntry_key hl
    have hq1 : sumQty [⟨pr, szv, 1⟩] pr szv = 1 := by simp [sumQty]
    have hc1 : ¬ (([⟨pr, szv, 1⟩] : List ItemReq).any
        (fun r => (lookupEntry s.stock r.product r.size).isNone)) = true := by
      simp [hl]
    have hc2 : stockOffenders s.stock [⟨pr, szv, 1⟩] = [] := by
      unfold stockOffenders
      simp [hl, hq1, h1]
    have hstock0 : e.stock - sumQty [⟨pr, szv, 1⟩] e.product e.size = 0 := by
      rw [hkey.2.1, hkey.2.2, hq1, h1]
    have hl2 := lookupEntry_decrementStock s.stock [⟨pr, szv, 1⟩] pr szv
    rw [hl] at hl2
    simp only [Option.map_some', hstock0] at hl2
    have hc1' : ¬ (([⟨pr, szv, 1⟩] : List ItemReq).any
        (fun r => (lookupEntry (decrementStock s.stock [⟨pr, szv, 1⟩])
          r.product r.size).isNone)) = true := by
      simp [hl2]
    have hoffeq : stockOffenders (decrementStock s.stock [⟨pr, szv, 1⟩])
        [⟨pr, szv, 1⟩] = [⟨pr, szv, 1⟩] := by
      unfold stockOffenders
      simp [hl2, hq1, hstock0]
    refine ⟨{ items := snapshotItems s.stock [⟨pr, szv, 1⟩],
              couponCode := none, discount := 0,
              total := itemsSubtotal (snapshotItems s.stock [⟨pr, szv, 1⟩]),
              orderStatus := .pending, request := none },
            { stock := decrementStock s.stock [⟨pr, szv, 1⟩],
              coupons := s.coupons }, ?_, ?_⟩
    · unfold createOrder
      rw [if_neg hc1, if_neg (not_not_intro hc2)]
    · unfold createOrder
      rw [if_neg hc1']
      rw [if_pos (by rw [hoffeq]; simp)]
      rw [hoffeq]
  · intro h
    obtain ⟨_, _, _, _, hst, _, _, hn, hsome⟩ := createOrder_ok h
    refine ⟨hst, fun h0 => (hn h0).2, fun cd hcd => ?_⟩
    obtain ⟨c, _, _, hcoup⟩ := hsome cd hcd
    exact hcoup

/-- C8 witness: concrete store with a single unit of variant (1, "g");
the theorem instantiates to: the first one-unit order succeeds and the
immediately following identical order fails with the insufficient-stock
error listing the item. -/
theorem last_unit_race_witness :
    ∃ o s', createOrder { stock := [⟨1, "g", "c", 100, 1⟩], coupons := [] }
        [⟨1, "g", 1⟩] none none 0 0 = .ok (o, s')
      ∧ createOrder s' [⟨1, "g", 1⟩] none none 0 0
          = .error (.insufficientStock [⟨1, "g", 1⟩]) :=
  (last_unit_race { stock := [⟨1, "g", "c", 100, 1⟩], coupons := [] } 1 "g"
    ⟨1, "g", "c", 100, 1⟩ 0
    { stock := [], coupons := [] } [] none none 0 0
    { items := [], couponCode := none, discount := 0, total := 0,
      orderStatus := .pending, request := none }
    { stock := [], coupons := [] }
    (by simp [lookupEntry]) rfl).1

theorem processCancel_pending_cancel (o : Order) (st : List StockEntry)
    (notes : String) (r : CRRequest) (hreq : o.request = some r)
    (hc : r.rtype = .cancel) (hp : r.status = .pending) :
    processCancelRequest o st true notes
      = .ok ({ o with
                 orderStatus := .cancelled,
                 request := some { r with status := .approved, adminNotes := some notes } },
             restoreStock st o.items)
    ∧ processCancelRequest o st false notes
      = .ok ({ o with request := some { r with status := .rejected, adminNotes := some notes } },
             st) := by
  unfold processCancelRequest
  rw [hreq]
  constructor <;> simp [hc, hp]

/-- C5: take any order produced by `createOrder` (over a well-keyed
inventory) on which a cancel request has been filed.  Approving the
request turns the order `cancelled` and returns the stock store to
exactly its pre-order contents — every line item's decrement is undone;
rejecting it leaves the order status and the stock unchanged and clears
the pending request (its status becomes rejected). -/
theorem process_cancel_spec
    (s : State) (items : List ItemReq) (cc : Option String) (uoc : Option Nat)
    (uuc : Nat) (now : Int) (o o₂ : Order) (s' : State)
    (rsn dsc notes : String)
    (hW : (s.stock.map (fun x => (x.product, x.size))).Nodup)
    (hok : createOrder s items cc uoc uuc now = .ok (o, s'))
    (hrc : requestCancel o rsn dsc = .ok o₂) :
    (∃ o₃, processCancelRequest o₂ s'.stock true notes = .ok (o₃, s.stock)
       ∧ o₃.orderStatus = .cancelled)
    ∧ (∀ o₄ st₄, processCancelRequest o₂ s'.stock false notes = .ok (o₄, st₄) →
        o₄.orderStatus = o₂.orderStatus ∧ hasPendingRequest o₄ = false
        ∧ st₄ = s'.stock) := by
  obtain ⟨hitems, hstat, hreq, _, hst, hres, hoff, _, _⟩ := createOrder_ok hok
  have hallow : o.orderStatus = OrderStatus.pending ∨
      o.orderStatus = OrderStatus.confirmed ∨
      o.orderStatus = OrderStatus.processing := Or.inl hstat
  have hnp : ¬ (hasPendingRequest o = true) := by
    simp [hasPendingRequest, hreq]
  unfold requestCancel at hrc
  rw [if_neg (not_not_intro hallow), if_neg hnp] at hrc
  simp only [Except.ok.injEq] at hrc
  subst hrc
  have hpc := processCancel_pending_cancel
    { o with request := some ⟨.cancel, rsn, dsc, .pending, none, none⟩ }
    s'.stock notes ⟨.cancel, rsn, dsc, .pending, none, none⟩ rfl rfl rfl
  have hrestore : restoreStock s'.stock o.items = s.stock := by
    rw [hitems, hst]
    exact restore_decrement s.stock items hW hoff
  constructor
  · have happ := hpc.1
    dsimp only at happ
    rw [hrestore] at happ
    exact ⟨_, happ, rfl⟩
  · intro o₄ st₄ h
    rw [hpc.2] at h
    simp only [Except.ok.injEq, Prod.mk.injEq] at h
    obtain ⟨ho4, hst4⟩ := h
    subst ho4
    exact ⟨rfl, by simp [hasPendingRequest], hst4.symm⟩

/-- C5 witness: the two-unit order from the C2 scenario, after a cancel
request, is approved: processing returns the stock store to its original
five units and the order ends `cancelled`. -/
theorem process_cancel_spec_witness :
    ∃ o₃, processCancelRequest
        { items := [{ product := 1, size := "g", price := 100, quantity := 2 }],
          couponCode := none, discount := 0, total := 200,
          orderStatus := .pending,
          request := some ⟨.cancel, "r", "d", .pending, none, none⟩ }
        [⟨1, "g", "c", 100, 3⟩] true "ok"
      = .ok (o₃, [⟨1, "g", "c", 100, 5⟩]) ∧ o₃.orderStatus = .cancelled := by
  have hco : createOrder { stock := [⟨1, "g", "c", 100, 5⟩], coupons := [] }
      [⟨1, "g", 2⟩] none none 0 0
      = .ok ({ items := [{ product := 1, size := "g", price := 100,
                           quantity := 2 }],
               couponCode := none, discount := 0, total := 200,
               orderStatus := .pending, request := none },
             { stock := [⟨1, "g", "c", 100, 3⟩], coupons := [] }) := by
    simp [createOrder, lookupEntry, stockOffenders, sumQty, snapshotItems,
          cartOfReqs, itemsSubtotal, decrementStock]
    norm_num
  have hrc : requestCancel
      { items := [{ product := 1, size := "g", price := 100, quantity := 2 }],
        couponCode := none, discount := 0, total := 200,
        orderStatus := OrderStatus.pending, request := none } "r" "d"
      = .ok { items := [{ product := 1, size := "g", price := 100,
                          quantity := 2 }],
              couponCode := none, discount := 0, total := 200,
              orderStatus := .pending,
              request := some ⟨.cancel, "r", "d", .pending, none, none⟩ } := by
    simp [requestCancel, hasPendingRequest]
  exact (process_cancel_spec
    { stock := [⟨1, "g", "c", 100, 5⟩], coupons := [] } [⟨1, "g", 2⟩]
    none none 0 0
    { items := [{ product := 1, size := "g", price := 100, quantity := 2 }],
      couponCode := none, discount := 0, total := 200,
      orderStatus := .pending, request := none }
    { items := [{ product := 1, size := "g", price := 100, quantity := 2 }],
      couponCode := none, discount := 0, total := 200,
      orderStatus := .pending,
      request := some ⟨.cancel, "r", "d", .pending, none, none⟩ }
    { stock := [⟨1, "g", "c", 100, 3⟩], coupons := [] }
    "r" "d" "ok" (by simp) hco hrc).1

end VibeBites
